import Mathlib

/-!
Verification development for a desktop PostgreSQL client.

The development shallowly embeds the data-access layer (the IPC handlers in
`src/main/ipc` and the pool manager in `src/main/db/client.ts`) and the table
browser controller (`src/renderer/src/components/ResultsPanel/TableBrowser.tsx`
and the cell-edit staging of `ResultsGrid.tsx`).

Modelling conventions:
* SQL execution is modelled denotationally: the table visible to a query is a
  Lean list of rows; `LIMIT`/`OFFSET` become `List.take`/`List.drop`;
  `COUNT(*)` becomes `List.length`; `ORDER BY` becomes `List.mergeSort` with
  the comparator taken as a parameter (the engine's collation is outside the
  program); `ROW_NUMBER() OVER (...) - 1` becomes `List.enum` over the ordered
  row list.  `LIKE`/`ILIKE` pattern matching is implemented concretely
  (`likeMatch` below); case folding performed by `ILIKE` is a parameter
  `fold : Char → Char` since it is locale-dependent in the engine.
* Asynchronous RPC handlers become pure functions from their inputs (plus the
  backend's reply, passed as an explicit argument where the handler awaits
  one) to their results.  Effects observable over the RPC boundary are
  reified as an explicit trace (`Eff` below).
* JavaScript `Map`s keyed by stringified row indices become association lists
  keyed by `Nat`; JS objects holding column values become association lists
  `List (String × String)`.
-/

/-! ### Rows and table data (query:fetchTable, src/main/ipc/schema.ts:142-189) -/

/-- Result snapshot of `query:fetchTable`: the handler returns
`{rows, fields, total, limit, offset}`; `fields` is presentation metadata
(name/dataTypeID pairs copied from the driver) and is not modelled. -/
structure TableData (Row : Type) where
  rows : List Row
  total : Nat
  limit : Nat
  offset : Nat
deriving Repr, DecidableEq

/-- Embedding of the `query:fetchTable` handler's two concurrent queries:
`SELECT * FROM t [WHERE flt] [ORDER BY ...] LIMIT $1 OFFSET $2` and
`SELECT COUNT(*) FROM t [WHERE flt]`.  `tbl` is the backing table in its
server-default order, `flt` the active `WHERE` filter (the handler inserts it
into both queries), and `orderBy` the comparator denoted by the
`ORDER BY "col" dir` clause when one is present. -/
def fetchTable {Row : Type} (tbl : List Row) (flt : Row → Bool)
    (orderBy : Option (Row → Row → Bool)) (limit offset : Nat) : TableData Row :=
  let filtered := tbl.filter flt
  let ordered := match orderBy with
    | none => filtered
    | some le => filtered.mergeSort le
  { rows := (ordered.drop offset).take limit
    total := filtered.length
    limit := limit
    offset := offset }

/-! ### LIKE / ILIKE pattern matching and query:searchTable
(src/main/ipc/schema.ts:191-245)

`searchTable` sends the parameter `'%' + term.replace(/[%_\\]/g, '\\$&') + '%'`
to an `ILIKE` predicate.  `likeMatch` is the SQL `LIKE` matcher on character
lists: `%` matches any (possibly empty) substring, `_` any single character,
`\\x` the literal character `x`, and every other pattern character itself.
`ILIKE` additionally case-folds both sides; the fold is the `fold` parameter
below, since it is a property of the engine's locale. -/

/-- SQL `LIKE` matching of a string against a pattern, both as char lists. -/
def likeMatch : List Char → List Char → Bool
  | [], s => s.isEmpty
  | '%' :: ps, s => s.tails.any (fun s2 => likeMatch ps s2)
  | '\\' :: ps, s =>
    (match ps, s with
     | e :: ps2, d :: s2 => d == e && likeMatch ps2 s2
     | _, _ => false)
  | '_' :: ps, s =>
    (match s with
     | [] => false
     | _ :: s2 => likeMatch ps s2)
  | c :: ps, s =>
    (match s with
     | [] => false
     | d :: s2 => d == c && likeMatch ps s2)

/-- `term.replace(/[%_\\]/g, '\\$&')`: prefix every wildcard metacharacter
with a backslash. -/
def escapeLike : List Char → List Char
  | [] => []
  | c :: cs =>
    if c = '%' ∨ c = '_' ∨ c = '\\' then '\\' :: c :: escapeLike cs
    else c :: escapeLike cs

/-- The bind parameter built by the handler: `` `%${escaped}%` ``-style
wrapping of the escaped term. -/
def buildLikeArg (term : List Char) : List Char :=
  '%' :: (escapeLike term ++ ['%'])

/-- `ILIKE`: `LIKE` after the engine case-folds both pattern and operand. -/
def ilikeMatch (fold : Char → Char) (pat s : List Char) : Bool :=
  likeMatch (pat.map fold) (s.map fold)

/-- One row of the `information_schema.columns` introspection query the
handler runs first. -/
structure ColumnMetadata where
  column_name : String
  data_type : String
deriving Repr, DecidableEq

/-- `const skipTypes = new Set(['bytea', 'ARRAY', 'USER-DEFINED'])`. -/
def skipTypes : List String := ["bytea", "ARRAY", "USER-DEFINED"]

/-- `COALESCE("c"::text, '')`: a cell's text cast with NULL replaced by the
empty string.  A cell is `Option (List Char)`, `none` being SQL NULL. -/
def coalesceText (cell : Option (List Char)) : List Char := cell.getD []

/-- The generated match predicate: OR over the non-skipped columns of
`COALESCE("c"::text, '') ILIKE $1`.  A row is the list of its cells in
`ordinal_position` order, aligned with `cols`. -/
def searchRowMatches (fold : Char → Char) (cols : List ColumnMetadata)
    (pat : List Char) (row : List (Option (List Char))) : Bool :=
  ((cols.zip row).filter (fun cr => ! skipTypes.contains cr.1.data_type)).any
    (fun cr => ilikeMatch fold pat (coalesceText cr.2))

/-- The row order denoted by the optional `ORDER BY "col" dir` clause: the
server-default order when absent, an engine sort by the comparator when
present (shared by `fetchTable` and `searchTable`, which build the clause
identically). -/
def orderedRows {Row : Type} (tbl : List Row) (orderBy : Option (Row → Row → Bool)) :
    List Row :=
  match orderBy with
  | none => tbl
  | some le => tbl.mergeSort le

/-- The `query:searchTable` handler after column introspection: if every
column has a skipped type, return `{matchingRows: [], total: 0}`; otherwise
number all rows of the ordered table with `ROW_NUMBER() OVER (...) - 1`,
keep the rows satisfying the match predicate, and return their indices in
`_rn` order together with the count of matches. -/
def searchTable (fold : Char → Char) (cols : List ColumnMetadata)
    (tbl : List (List (Option (List Char)))) (term : List Char)
    (orderBy : Option (List (Option (List Char)) → List (Option (List Char)) → Bool)) :
    List Nat × Nat :=
  if (cols.filter (fun c => ! skipTypes.contains c.data_type)).isEmpty then ([], 0)
  else
    let pat := buildLikeArg term
    let matching := (((orderedRows tbl orderBy).enum.filter
      (fun pr => searchRowMatches fold cols pat pr.2)).map Prod.fst)
    (matching, matching.length)

/-- Specification-side reading of the match predicate: some non-skipped
column's coalesced text contains the search term as a substring, up to the
engine's case fold. -/
def rowContainsTerm (fold : Char → Char) (cols : List ColumnMetadata)
    (term : List Char) (row : List (Option (List Char))) : Prop :=
  ∃ cr ∈ cols.zip row, ¬ cr.1.data_type ∈ skipTypes ∧
    ∃ u v, (coalesceText cr.2).map fold = u ++ term.map fold ++ v

/-! ### Query history (history:add, src/main/ipc/history.ts:8-14) -/

/-- Stored query-history record (`QueryHistoryEntry` in `src/main/store.ts`);
optional fields become `Option`. -/
structure QueryHistoryEntry where
  id : String
  connectionId : String
  sql : String
  executedAt : Nat
  durationMs : Option Nat
  rowCount : Option Nat
deriving Repr, DecidableEq

/-- `MAX_HISTORY` from `src/main/ipc/history.ts`. -/
def MAX_HISTORY : Nat := 500

/-- The `history:add` handler: prepend the new entry (with its fresh id
already attached, standing for `randomUUID()`) and keep the first
`MAX_HISTORY` entries — `[newEntry, ...history].slice(0, MAX_HISTORY)`. -/
def historyAdd (history : List QueryHistoryEntry) (newEntry : QueryHistoryEntry) :
    List QueryHistoryEntry :=
  (newEntry :: history).take MAX_HISTORY

/-! ### Connection pool manager (src/main/db/client.ts) -/

/-- The module-level `pools` map of `client.ts`, as an association list from
connection id to an abstract pool handle. -/
structure PoolRegistry where
  pools : List (String × Nat)
deriving Repr, DecidableEq

/-- `getPool`: `pools.get(connectionId)`. -/
def getPool (m : PoolRegistry) (connectionId : String) : Option Nat :=
  (m.pools.find? (fun e => e.1 == connectionId)).map Prod.snd

/-- Embedding of `connect` in `client.ts`.  If a pool is registered for the
id, `end()` it — the drain's outcome `drainFails` is discarded by
`.catch(() => {})` — and delete the entry.  Then a new pool `newPool` is
opened and probed with `pool.connect()`; `liveOk` is that probe's outcome.
On success the pool is registered (`pools.set`); on failure the thrown error
propagates and the registration line is never reached. -/
def connectPool (m : PoolRegistry) (id : String) (_drainFails : Bool)
    (newPool : Nat) (liveOk : Bool) : PoolRegistry × Except String Unit :=
  let m1 : PoolRegistry :=
    if (m.pools.find? (fun e => e.1 == id)).isSome then
      ⟨m.pools.filter (fun e => e.1 != id)⟩
    else m
  if liveOk then (⟨(id, newPool) :: m1.pools⟩, Except.ok ())
  else (m1, Except.error "connection failed")

/-! ### Saved connections (connections:list / connections:save,
src/main/ipc/connection.ts:7-54) -/

/-- `SavedConnection` from `src/main/store.ts`. -/
structure SavedConnection where
  id : String
  name : String
  host : String
  port : Nat
  database : String
  username : String
  encryptedPassword : String
  ssl : Bool
  color : String
  createdAt : Nat
deriving Repr, DecidableEq

/-- The renderer-visible shape of a connection: every `SavedConnection` field
except `encryptedPassword`, which both handlers strip by destructuring
(`const { encryptedPassword: _pw, ...rest } = c`). -/
structure PublicConnection where
  id : String
  name : String
  host : String
  port : Nat
  database : String
  username : String
  ssl : Bool
  color : String
  createdAt : Nat
deriving Repr, DecidableEq

/-- The `{ encryptedPassword: _pw, ...rest }` destructuring both handlers
apply before returning a record across the RPC boundary. -/
def stripPassword (c : SavedConnection) : PublicConnection :=
  { id := c.id, name := c.name, host := c.host, port := c.port
    database := c.database, username := c.username, ssl := c.ssl
    color := c.color, createdAt := c.createdAt }

/-- The `connections:list` handler: map the stored list through the
password-stripping destructuring. -/
def connectionsList (stored : List SavedConnection) : List PublicConnection :=
  stored.map stripPassword

/-- Request body of `connections:save` (the renderer sends the plaintext
password and, when editing, the record id). -/
structure SaveConnectionInput where
  name : String
  host : String
  port : Nat
  database : String
  username : String
  password : String
  ssl : Bool
  color : String
  id : Option String
deriving Repr, DecidableEq

/-- `connections[idx] = updated` for the first index whose record matches
`theId` (`findIndex` semantics). -/
def replaceById (l : List SavedConnection) (theId : String)
    (updated : SavedConnection) : List SavedConnection :=
  match l with
  | [] => []
  | c :: cs => if c.id == theId then updated :: cs else c :: replaceById cs theId updated

/-- The `connections:save` handler.  `encrypt` stands for `encryptPassword`
(it delegates to Electron `safeStorage`), `uuid` for `randomUUID()` and `now`
for `Date.now()`.  With an `id` that matches a stored record the record is
replaced by `{ ...connections[idx], ...data, encryptedPassword }` (spreading
`data` overwrites every profile field, `createdAt` is kept); otherwise a new
record is appended.  Either way the stored list is written back and the
saved record is returned with `encryptedPassword` stripped. -/
def connectionsSave (stored : List SavedConnection) (data : SaveConnectionInput)
    (encrypt : String → String) (uuid : String) (now : Nat) :
    List SavedConnection × PublicConnection :=
  let encryptedPassword := encrypt data.password
  match data.id with
  | some theId =>
    match stored.find? (fun c => c.id == theId) with
    | some old =>
      let updated : SavedConnection :=
        { id := old.id, name := data.name, host := data.host, port := data.port
          database := data.database, username := data.username
          encryptedPassword := encryptedPassword, ssl := data.ssl
          color := data.color, createdAt := old.createdAt }
      (replaceById stored theId updated, stripPassword updated)
    | none =>
      let newConn : SavedConnection :=
        { id := uuid, name := data.name, host := data.host, port := data.port
          database := data.database, username := data.username
          encryptedPassword := encryptedPassword, ssl := data.ssl
          color := data.color, createdAt := now }
      (stored ++ [newConn], stripPassword newConn)
  | none =>
    let newConn : SavedConnection :=
      { id := uuid, name := data.name, host := data.host, port := data.port
        database := data.database, username := data.username
        encryptedPassword := encryptedPassword, ssl := data.ssl
        color := data.color, createdAt := now }
    (stored ++ [newConn], stripPassword newConn)

/-! ### Table browser controller
(src/renderer/src/components/ResultsPanel/TableBrowser.tsx, with the
cell-edit staging of ResultsGrid.tsx)

React `useState` pieces become fields of `BrowserState`; the `useRef`
mirrors (`pageRef`, `sortRef`, ...) always hold the same values and are not
duplicated.  Calls crossing the RPC boundary and user-visible toasts are
reified in an effect trace (`Eff`); where a handler awaits a backend reply,
that reply is an explicit argument of the transition function. -/

/-- A fetched row as the renderer sees it: column name to displayed string
value (`cellValueToString` output). -/
abbrev BrowserRow := List (String × String)

/-- JS `Map.set` / object-spread update on an association list: replace the
first binding of the key, or append one. -/
def assocSet {κ α : Type} [BEq κ] (m : List (κ × α)) (k : κ) (v : α) :
    List (κ × α) :=
  match m with
  | [] => [(k, v)]
  | e :: es => if e.1 == k then (k, v) :: es else e :: assocSet es k v

/-- JS `Map.get` / property lookup on an association list. -/
def assocGet {κ α : Type} [BEq κ] (m : List (κ × α)) (k : κ) : Option α :=
  (m.find? (fun e => e.1 == k)).map Prod.snd

/-- `SortState` of `ResultsGrid.tsx`: `{column, dir} | null`. -/
inductive SortDir
  | asc
  | desc
deriving Repr, DecidableEq

/-- The `{column, dir}` record of a non-null sort state. -/
structure SortSpec where
  column : String
  dir : SortDir
deriving Repr, DecidableEq

/-- RPC requests the browser issues through `window.api.query`. -/
inductive Rpc
  | fetchTableCall (page : Nat) (sort : Option SortSpec) (filter : String)
  | searchTableCall (term : String) (sort : Option SortSpec)
  | getPrimaryKeys
  | insertRow (values : List (String × String))
  | updateRow (primaryKeys : List String) (pkValues : List (String × Option String))
      (updates : List (String × String))
  | deleteRows (primaryKeys : List String)
      (pkValuesList : List (List (String × Option String)))
deriving Repr, DecidableEq

/-- Whether an RPC mutates the backing database. -/
def Rpc.isWrite : Rpc → Bool
  | .insertRow _ => true
  | .updateRow _ _ _ => true
  | .deleteRows _ _ => true
  | _ => false

/-- Observable effects of a browser transition: RPC requests and toasts. -/
inductive Eff
  | rpc (r : Rpc)
  | toast (title : String)
deriving Repr, DecidableEq

/-- Whether an effect is a write RPC. -/
def Eff.isWrite : Eff → Bool
  | .rpc r => r.isWrite
  | .toast _ => false

/-- Number of write RPCs in a trace. -/
def writeCount (tr : List Eff) : Nat := (tr.filter Eff.isWrite).length

/-- The `TableBrowser` component state relevant to the browser claims
(`page`, `sortState`, filter and search state, selection, pending edits,
the pending new row, the dialog flags, and the last `TableData` snapshot
stored on the tab). -/
structure BrowserState where
  page : Nat
  sortState : Option SortSpec
  activeFilter : String
  filterError : String
  searchTerm : String
  matchRows : List Nat
  matchIdx : Int
  searchDone : Bool
  selectedRows : List Nat
  pendingNewRow : Bool
  newRowValues : List (String × String)
  pendingEdits : List (Nat × List (String × String))
  tableData : Option (TableData BrowserRow)
  showDeleteDialog : Bool
deriving Repr, DecidableEq

/-- `fetchPage(pageNum, sort, filter)`: issue `query:fetchTable` for
`offset = pageNum * PAGE_SIZE` with the given sort and filter; `reply` is
the awaited backend response.  On success the handler stores the snapshot,
commits the page number and empties the selection set; on failure the
message lands in the filter-error slot when a filter is active and in a
toast otherwise.  `setFilterError('')` runs unconditionally first. -/
def fetchPage (s : BrowserState) (pageNum : Nat) (sort : Option SortSpec)
    (filter : String) (reply : Except String (TableData BrowserRow)) :
    BrowserState × List Eff :=
  let req := Eff.rpc (Rpc.fetchTableCall pageNum sort filter)
  match reply with
  | Except.ok data =>
    ({ s with
        filterError := "", tableData := some data, page := pageNum,
        selectedRows := [] }, [req])
  | Except.error msg =>
    if filter ≠ "" then ({ s with filterError := msg }, [req])
    else ({ s with filterError := "" }, [req, Eff.toast msg])

/-- Pagination controls: `fetchPage(page ± 1)` uses the defaulted arguments
`sortRef.current` and `activeFilter`. -/
def changePage (s : BrowserState) (newPage : Nat)
    (reply : Except String (TableData BrowserRow)) : BrowserState × List Eff :=
  fetchPage s newPage s.sortState s.activeFilter reply

/-- The sort-cycle computation of `handleSort`:
same column ASC ↦ DESC, same column DESC ↦ null, anything else ↦ ASC. -/
def nextSort (cur : Option SortSpec) (col : String) : Option SortSpec :=
  match cur with
  | some sp =>
    if sp.column = col then
      (match sp.dir with
       | SortDir.asc => some { column := col, dir := SortDir.desc }
       | SortDir.desc => none)
    else some { column := col, dir := SortDir.asc }
  | none => some { column := col, dir := SortDir.asc }

/-- `handleSort(col)`: commit the cycled sort state, then
`fetchPage(0, next)` with the still-active filter. -/
def handleSort (s : BrowserState) (col : String)
    (reply : Except String (TableData BrowserRow)) : BrowserState × List Eff :=
  let next := nextSort s.sortState col
  fetchPage { s with sortState := next } 0 next s.activeFilter reply

/-- `searchNext`: no-op when there are no matches; otherwise advance the
pointer with JS `(matchIdx + 1) % rows.length` (JS `%` is the truncated
remainder, `Int.tmod`) and navigate to `rows[next]` — the returned global
row index handed to `navigateToGlobalRow`. -/
def searchNext (s : BrowserState) : BrowserState × Option Nat :=
  if s.matchRows.length = 0 then (s, none)
  else
    let nxt : Int := (s.matchIdx + 1).tmod (s.matchRows.length : Int)
    ({ s with matchIdx := nxt }, s.matchRows[nxt.toNat]?)

/-- `searchPrev`: the circular step back,
`(matchIdx - 1 + rows.length) % rows.length`. -/
def searchPrev (s : BrowserState) : BrowserState × Option Nat :=
  if s.matchRows.length = 0 then (s, none)
  else
    let prv : Int := (s.matchIdx - 1 + s.matchRows.length).tmod (s.matchRows.length : Int)
    ({ s with matchIdx := prv }, s.matchRows[prv.toNat]?)

/-- The cell-edit commit of `ResultsGrid` (the `onBlur` handler of the cell
input): when the entered text differs from the original cell's string
representation, merge `{[col]: newVal}` into `pendingEdits[rowIdx]`;
otherwise nothing changes.  (`setEditCell(null)` also runs; the transient
edit-cursor is not part of the modelled state.)  No RPC is involved. -/
def stageCellEdit (s : BrowserState) (rowIdx : Nat) (col : String)
    (newVal origStr : String) : BrowserState × List Eff :=
  if newVal ≠ origStr then
    ({ s with
        pendingEdits := assocSet s.pendingEdits rowIdx
          (assocSet ((assocGet s.pendingEdits rowIdx).getD []) col newVal) }, [])
  else (s, [])

/-- A sequence of cell-edit commits, accumulating the effect trace. -/
def stageCellEdits (s : BrowserState)
    (edits : List (Nat × String × String × String)) : BrowserState × List Eff :=
  edits.foldl
    (fun acc e =>
      let r := stageCellEdit acc.1 e.1 e.2.1 e.2.2.1 e.2.2.2
      (r.1, acc.2 ++ r.2))
    (s, [])

/-- `row[pk]` for the primary-key tuple built from the already-fetched
snapshot (`undefined` when the column is absent from the record). -/
def pkTuple (pks : List String) (row : BrowserRow) : List (String × Option String) :=
  pks.map (fun pk => (pk, assocGet row pk))

/-- `handleSaveAll`: insert the pending new row if one is populated, then —
when pending edits exist — fetch the primary keys and issue one
`query:updateRow` per edited row still present in the snapshot, collecting
per-item errors without aborting; finally clear the pending state when no
error occurred, and refetch the current page either way.  `pks` is the
awaited `getPrimaryKeys` reply, `insertFails`/`updateFails` the outcomes of
the individual write calls, `refetchReply` the final fetch's reply. -/
def handleSaveAll (s : BrowserState) (pks : List String) (insertFails : Bool)
    (updateFails : Nat → Bool) (refetchReply : Except String (TableData BrowserRow)) :
    BrowserState × List Eff :=
  match s.tableData with
  | none => (s, [])
  | some data =>
    let doInsert := s.pendingNewRow && !s.newRowValues.isEmpty
    let insertTrace := if doInsert then [Eff.rpc (Rpc.insertRow s.newRowValues)] else []
    let insertErrs := if doInsert && insertFails then 1 else 0
    let updatable := s.pendingEdits.filterMap
      (fun pe => (data.rows[pe.1]?).map (fun row => (pe.1, pkTuple pks row, pe.2)))
    let updateTrace :=
      if s.pendingEdits.isEmpty then []
      else if pks.isEmpty then [Eff.rpc Rpc.getPrimaryKeys]
      else Eff.rpc Rpc.getPrimaryKeys ::
        updatable.map (fun u => Eff.rpc (Rpc.updateRow pks u.2.1 u.2.2))
    let updateErrs :=
      if s.pendingEdits.isEmpty then 0
      else if pks.isEmpty then 1
      else (updatable.filter (fun u => updateFails u.1)).length
    let cleared :=
      if insertErrs + updateErrs = 0 then
        { s with
            pendingNewRow := false, newRowValues := [], pendingEdits := [] }
      else s
    let toastEff :=
      if insertErrs + updateErrs = 0 then Eff.toast "Saved"
      else Eff.toast "Some changes failed"
    let refetched := fetchPage cleared s.page s.sortState s.activeFilter refetchReply
    (refetched.1, insertTrace ++ updateTrace ++ [toastEff] ++ refetched.2)

/-- `confirmDelete`: with a snapshot and a non-empty selection, await
`getPrimaryKeys`; with no primary key, toast the error, close the dialog
and return before any mutation.  Otherwise issue `query:deleteRows` with
per-row primary-key tuples taken from the snapshot, toast the outcome,
clear the selection on success, and refetch the page. -/
def confirmDelete (s : BrowserState) (pks : List String)
    (deleteReply : Except String Nat)
    (refetchReply : Except String (TableData BrowserRow)) : BrowserState × List Eff :=
  match s.tableData with
  | none => (s, [])
  | some data =>
    if s.selectedRows.isEmpty then (s, [])
    else
      let tr0 := [Eff.rpc Rpc.getPrimaryKeys]
      if pks.isEmpty then
        ({ s with showDeleteDialog := false }, tr0 ++ [Eff.toast "No primary key"])
      else
        let pkValuesList := s.selectedRows.map
          (fun idx => pkTuple pks ((data.rows[idx]?).getD []))
        let del := Eff.rpc (Rpc.deleteRows pks pkValuesList)
        match deleteReply with
        | Except.ok _ =>
          let cleared := { s with showDeleteDialog := false, selectedRows := [] }
          let refetched := fetchPage cleared s.page s.sortState s.activeFilter refetchReply
          (refetched.1, tr0 ++ [del, Eff.toast "Deleted"] ++ refetched.2)
        | Except.error _ =>
          ({ s with showDeleteDialog := false }, tr0 ++ [del, Eff.toast "Delete failed"])

/-- Server-side row count of the browsed table after a trace is applied:
`insertRow` adds one row, `deleteRows` removes one row per primary-key
tuple; reads and toasts leave it unchanged.  (Deletes of matched rows each
remove at most one row; equality here models the matched case, which only
strengthens what the no-write claims must rule out.) -/
def serverTotalAfter (total : Nat) (tr : List Eff) : Nat :=
  tr.foldl
    (fun t e =>
      match e with
      | Eff.rpc (Rpc.insertRow _) => t + 1
      | Eff.rpc (Rpc.deleteRows _ pkl) => t - pkl.length
      | _ => t)
    total

/-! ### Concrete states for instantiating the browser claims -/

/-- A browser state holding completed search results, used to instantiate
the sort-toggle claim. -/
def sortSampleState : BrowserState :=
  { page := 0, sortState := none, activeFilter := "", filterError := ""
    searchTerm := "al", matchRows := [7, 42], matchIdx := 0, searchDone := true
    selectedRows := [], pendingNewRow := false, newRowValues := []
    pendingEdits := [], tableData := none, showDeleteDialog := false }

/-- A browser state with search results and the initial `-1` pointer, used
to instantiate the search-navigation claim. -/
def navSampleState : BrowserState :=
  { page := 0, sortState := none, activeFilter := "", filterError := ""
    searchTerm := "al", matchRows := [7, 42], matchIdx := -1, searchDone := true
    selectedRows := [], pendingNewRow := false, newRowValues := []
    pendingEdits := [], tableData := none, showDeleteDialog := false }

/-- A browser state with one staged pending edit on the single fetched row,
used to instantiate the staging claim. -/
def editSampleState : BrowserState :=
  { page := 0, sortState := none, activeFilter := "", filterError := ""
    searchTerm := "", matchRows := [], matchIdx := -1, searchDone := false
    selectedRows := [], pendingNewRow := false, newRowValues := []
    pendingEdits := [(0, [("email", "x@y.com")])]
    tableData := some { rows := [[("id", "5"), ("email", "a@b.com")]]
                        total := 1, limit := 200, offset := 0 }
    showDeleteDialog := false }

/-- A browser state with one selected row, used to instantiate the
no-primary-key delete claim. -/
def delSampleState : BrowserState :=
  { page := 0, sortState := none, activeFilter := "", filterError := ""
    searchTerm := "", matchRows := [], matchIdx := -1, searchDone := false
    selectedRows := [0], pendingNewRow := false, newRowValues := []
    pendingEdits := []
    tableData := some { rows := [[("id", "5"), ("email", "a@b.com")]]
                        total := 1, limit := 200, offset := 0 }
    showDeleteDialog := true }

/-! ## Helper lemmas on the LIKE matcher -/

/-- A pattern that is an escaped term followed by `%` matches exactly the
strings beginning with the term. -/
theorem likeMatch_escape_append (t : List Char) :
    ∀ s : List Char, likeMatch (escapeLike t ++ ['%']) s = true ↔ ∃ v, s = t ++ v := by
  induction t with
  | nil =>
    intro s
    simp only [escapeLike, List.nil_append, likeMatch, List.any_eq_true, List.mem_tails]
    constructor
    · intro _; exact ⟨s, rfl⟩
    · intro _
      exact ⟨[], ⟨s, by simp⟩, by simp⟩
  | cons c cs ih =>
    intro s
    by_cases hc : c = '%' ∨ c = '_' ∨ c = '\\'
    · rw [escapeLike, if_pos hc]
      cases s with
      | nil =>
        simp [likeMatch]
      | cons d s2 =>
        have hstep : likeMatch ('\\' :: c :: (escapeLike cs ++ ['%'])) (d :: s2) =
            ((d == c) && likeMatch (escapeLike cs ++ ['%']) s2) := by
          simp [likeMatch]
        rw [List.cons_append, List.cons_append, hstep]
        simp only [Bool.and_eq_true, beq_iff_eq, ih s2]
        constructor
        · rintro ⟨rfl, v, rfl⟩; exact ⟨v, rfl⟩
        · rintro ⟨v, hv⟩
          rw [List.cons_append] at hv
          cases hv
          exact ⟨rfl, v, rfl⟩
    · push_neg at hc
      obtain ⟨h1, h2, h3⟩ := hc
      rw [escapeLike, if_neg (by tauto)]
      cases s with
      | nil =>
        rw [List.cons_append]
        rw [likeMatch]
        · simp
        · simpa using h1
        · simpa using h3
        · simpa using h2
      | cons d s2 =>
        rw [List.cons_append]
        rw [likeMatch]
        · simp only [Bool.and_eq_true, beq_iff_eq, ih s2]
          constructor
          · rintro ⟨rfl, v, rfl⟩; exact ⟨v, rfl⟩
          · rintro ⟨v, hv⟩
            rw [List.cons_append] at hv
            cases hv
            exact ⟨rfl, v, rfl⟩
        · simpa using h1
        · simpa using h3
        · simpa using h2

/-- The full `%escaped%` bind parameter matches exactly the strings that
contain the term as a contiguous substring. -/
theorem likeMatch_buildLikeArg (t s : List Char) :
    likeMatch (buildLikeArg t) s = true ↔ ∃ u v, s = u ++ t ++ v := by
  rw [buildLikeArg, likeMatch]
  simp only [List.any_eq_true, List.mem_tails, likeMatch_escape_append]
  constructor
  · rintro ⟨s2, ⟨u, rfl⟩, v, rfl⟩
    exact ⟨u, v, by simp⟩
  · rintro ⟨u, v, rfl⟩
    exact ⟨t ++ v, ⟨u, by simp⟩, v, rfl⟩

/-- Escaping commutes with a case fold that fixes `\` and maps wildcard
metacharacters to wildcard metacharacters only. -/
theorem map_escapeLike (fold : Char → Char)
    (hback : fold '\\' = '\\')
    (hfold : ∀ c, (fold c = '%' ∨ fold c = '_' ∨ fold c = '\\') ↔
      (c = '%' ∨ c = '_' ∨ c = '\\')) (t : List Char) :
    (escapeLike t).map fold = escapeLike (t.map fold) := by
  induction t with
  | nil => simp [escapeLike]
  | cons c cs ih =>
    by_cases hc : c = '%' ∨ c = '_' ∨ c = '\\'
    · rw [escapeLike, if_pos hc]
      rw [List.map_cons, List.map_cons, List.map_cons, escapeLike, if_pos ((hfold c).mpr hc)]
      rw [hback, ih]
    · rw [escapeLike, if_neg hc]
      rw [List.map_cons, List.map_cons, escapeLike, if_neg (fun h => hc ((hfold c).mp h))]
      rw [ih]

/-- Building the bind parameter commutes with such a case fold. -/
theorem map_buildLikeArg (fold : Char → Char)
    (hpct : fold '%' = '%') (hback : fold '\\' = '\\')
    (hfold : ∀ c, (fold c = '%' ∨ fold c = '_' ∨ fold c = '\\') ↔
      (c = '%' ∨ c = '_' ∨ c = '\\')) (t : List Char) :
    (buildLikeArg t).map fold = buildLikeArg (t.map fold) := by
  rw [buildLikeArg, buildLikeArg, List.map_cons, List.map_append,
    map_escapeLike fold hback hfold]
  simp [hpct]

/-- The generated OR-of-`ILIKE` predicate holds exactly when some
non-skipped column's coalesced text contains the term as a case-folded
substring. -/
theorem searchRowMatches_iff (fold : Char → Char)
    (hpct : fold '%' = '%') (hback : fold '\\' = '\\')
    (hfold : ∀ c, (fold c = '%' ∨ fold c = '_' ∨ fold c = '\\') ↔
      (c = '%' ∨ c = '_' ∨ c = '\\'))
    (cols : List ColumnMetadata) (term : List Char) (row : List (Option (List Char))) :
    searchRowMatches fold cols (buildLikeArg term) row = true ↔
      rowContainsTerm fold cols term row := by
  rw [searchRowMatches, rowContainsTerm]
  simp only [List.any_eq_true, List.mem_filter, ilikeMatch,
    map_buildLikeArg fold hpct hback hfold, likeMatch_buildLikeArg]
  constructor
  · rintro ⟨cr, ⟨hm, hskip⟩, u, v, huv⟩
    exact ⟨cr, hm, by simpa using hskip, u, v, huv⟩
  · rintro ⟨cr, hm, hskip, u, v, huv⟩
    exact ⟨cr, ⟨hm, by simpa using hskip⟩, u, v, huv⟩

/-- Membership in the filtered row-number projection. -/
theorem search_indices_mem {α : Type} (p : Nat × α → Bool) (l : List α) (i : Nat) :
    i ∈ (l.enum.filter p).map Prod.fst ↔ ∃ x, l[i]? = some x ∧ p (i, x) = true := by
  simp only [List.mem_map, List.mem_filter]
  constructor
  · rintro ⟨⟨j, x⟩, ⟨hm, hp⟩, rfl⟩
    exact ⟨x, List.mem_enum_iff_getElem?.mp hm, hp⟩
  · rintro ⟨x, hx, hp⟩
    exact ⟨(i, x), ⟨List.mem_enum_iff_getElem?.mpr hx, hp⟩, rfl⟩

/-- The filtered row-number projection is strictly increasing. -/
theorem search_indices_sorted {α : Type} (p : Nat × α → Bool) (l : List α) :
    ((l.enum.filter p).map Prod.fst).Sorted (· < ·) := by
  have hsub : List.Sublist ((l.enum.filter p).map Prod.fst) (l.enum.map Prod.fst) :=
    List.Sublist.map _ (List.filter_sublist _)
  rw [List.enum_map_fst] at hsub
  exact (List.sorted_lt_range _).sublist hsub

/-! ## Claim theorems -/

/-- C1: for every fetchTable call with valid (schema, table, limit, offset)
against a table whose row count under the active filter is `total`, the
returned TableData has `rows.length = min limit (total - offset)` when
`offset < total`, and `rows.length = 0` when `offset ≥ total`. -/
theorem fetchTable_rows_length_spec {Row : Type} (tbl : List Row) (flt : Row → Bool)
    (orderBy : Option (Row → Row → Bool)) (limit offset : Nat) :
    (offset < (fetchTable tbl flt orderBy limit offset).total →
      (fetchTable tbl flt orderBy limit offset).rows.length =
        min limit ((fetchTable tbl flt orderBy limit offset).total - offset)) ∧
    ((fetchTable tbl flt orderBy limit offset).total ≤ offset →
      (fetchTable tbl flt orderBy limit offset).rows.length = 0) := by
  have key : (fetchTable tbl flt orderBy limit offset).rows.length =
      min limit ((tbl.filter flt).length - offset) ∧
      (fetchTable tbl flt orderBy limit offset).total = (tbl.filter flt).length := by
    cases orderBy with
    | none => simp [fetchTable]
    | some le => simp [fetchTable, List.length_mergeSort]
  obtain ⟨hr, ht⟩ := key
  rw [hr, ht]
  omega

set_option maxRecDepth 4000 in
/-- C1 witness: a 250-row table with no filter, page size 100, offset 200
yields 50 rows and total 250. -/
theorem fetchTable_rows_length_witness :
    (fetchTable (List.replicate 250 (0 : Nat)) (fun _ => true) none 100 200).rows.length = 50 ∧
    (fetchTable (List.replicate 250 (0 : Nat)) (fun _ => true) none 100 200).total = 250 := by
  have htot : (fetchTable (List.replicate 250 (0 : Nat)) (fun _ => true) none 100 200).total
      = 250 := by simp [fetchTable]
  have h1 := (fetchTable_rows_length_spec (List.replicate 250 (0 : Nat))
    (fun _ => true) none 100 200).1 (by rw [htot]; omega)
  rw [htot] at h1
  exact ⟨by simpa using h1, htot⟩

/-- C9: history:add puts the new entry first and keeps at most 500 entries,
dropping overflow from the oldest end; the bound holds after every sequence
of adds. -/
theorem historyAdd_spec (h : List QueryHistoryEntry) (e : QueryHistoryEntry) :
    (historyAdd h e).head? = some e ∧
    historyAdd h e = (e :: h).take MAX_HISTORY ∧
    (historyAdd h e).length ≤ MAX_HISTORY ∧
    (∀ (h0 es : List QueryHistoryEntry), es ≠ [] →
      (es.foldl historyAdd h0).length ≤ MAX_HISTORY) := by
  refine ⟨?_, rfl, ?_, ?_⟩
  · rfl
  · simp [historyAdd, MAX_HISTORY]
  · intro h0 es hne
    induction es generalizing h0 with
    | nil => exact absurd rfl hne
    | cons a as ih =>
      cases as with
      | nil => simp [historyAdd, MAX_HISTORY]
      | cons b bs =>
        rw [List.foldl_cons]
        exact ih (historyAdd h0 a) (by simp)

/-- C9 witness: a concrete add on a one-entry history. -/
theorem historyAdd_witness :
    ∃ e0 e1 : QueryHistoryEntry,
      (historyAdd [e0] e1).head? = some e1 ∧ (historyAdd [e0] e1).length ≤ MAX_HISTORY ∧
      ([e1, e1].foldl historyAdd []).length ≤ MAX_HISTORY := by
  refine ⟨⟨"a", "c", "q", 0, none, none⟩, ⟨"b", "c", "q", 1, none, none⟩, ?_⟩
  have h := historyAdd_spec [⟨"a", "c", "q", 0, none, none⟩] ⟨"b", "c", "q", 1, none, none⟩
  exact ⟨h.1, h.2.2.1, h.2.2.2 [] [⟨"b", "c", "q", 1, none, none⟩, ⟨"b", "c", "q", 1, none, none⟩] (by simp)⟩

/-- C7: connect drains and removes any pool registered for the id first
(the drain's outcome is discarded), and registers the new pool only after
the liveness probe succeeds; on probe failure the error propagates and no
pool remains registered for the id. -/
theorem connectPool_spec (m : PoolRegistry) (id : String) (drainFails : Bool)
    (newPool : Nat) (liveOk : Bool) :
    (liveOk = false →
      (connectPool m id drainFails newPool liveOk).2 = Except.error "connection failed" ∧
      getPool (connectPool m id drainFails newPool liveOk).1 id = none) ∧
    (liveOk = true →
      (connectPool m id drainFails newPool liveOk).2 = Except.ok () ∧
      getPool (connectPool m id drainFails newPool liveOk).1 id = some newPool) ∧
    (∀ df2 : Bool, connectPool m id df2 newPool liveOk =
      connectPool m id drainFails newPool liveOk) := by
  have hfilter : (m.pools.filter (fun e => e.1 != id)).find? (fun e => e.1 == id) = none := by
    rw [List.find?_eq_none]
    intro x hx
    have hni := (List.mem_filter.mp hx).2
    simp only [bne_iff_ne, ne_eq, decide_eq_true_eq] at hni
    simp [hni]
  refine ⟨?_, ?_, fun df2 => rfl⟩
  · intro hl
    subst hl
    by_cases hp : (m.pools.find? (fun e => e.1 == id)).isSome
    · simp [connectPool, hp, getPool, hfilter]
    · have hn : m.pools.find? (fun e => e.1 == id) = none :=
        Option.not_isSome_iff_eq_none.mp (by simpa using hp)
      simp [connectPool, hp, getPool, hn]
  · intro hl
    subst hl
    by_cases hp : (m.pools.find? (fun e => e.1 == id)).isSome <;>
      simp [connectPool, hp, getPool]

/-- C7 witness: probe failure on a registry that held a pool for the id. -/
theorem connectPool_witness :
    (connectPool ⟨[("c1", 7)]⟩ "c1" true 8 false).2 = Except.error "connection failed" ∧
    getPool (connectPool ⟨[("c1", 7)]⟩ "c1" true 8 false).1 "c1" = none ∧
    getPool (connectPool ⟨[("c1", 7)]⟩ "c1" true 8 true).1 "c1" = some 8 := by
  have h1 := (connectPool_spec ⟨[("c1", 7)]⟩ "c1" true 8 false).1 rfl
  have h2 := ((connectPool_spec ⟨[("c1", 7)]⟩ "c1" true 8 true).2.1) rfl
  exact ⟨h1.1, h1.2, h2.2⟩

/-- C10: every connection record returned by connections:list and
connections:save is the stored record with the encryptedPassword field
stripped: all other fields are preserved, and the RPC-visible result is
independent of the stored credential. -/
theorem connections_strip_spec (stored : List SavedConnection)
    (data : SaveConnectionInput) (encrypt : String → String) (uuid : String) (now : Nat) :
    connectionsList stored = stored.map stripPassword ∧
    (∀ c pw, stripPassword { c with encryptedPassword := pw } = stripPassword c) ∧
    (∀ c : SavedConnection, (stripPassword c).id = c.id ∧ (stripPassword c).name = c.name ∧
      (stripPassword c).host = c.host ∧ (stripPassword c).port = c.port ∧
      (stripPassword c).database = c.database ∧ (stripPassword c).username = c.username ∧
      (stripPassword c).ssl = c.ssl ∧ (stripPassword c).color = c.color ∧
      (stripPassword c).createdAt = c.createdAt) ∧
    (∀ enc2 : String → String,
      (connectionsSave stored data encrypt uuid now).2 =
        (connectionsSave stored data enc2 uuid now).2) := by
  refine ⟨rfl, fun c pw => rfl, fun c => ⟨rfl, rfl, rfl, rfl, rfl, rfl, rfl, rfl, rfl⟩, ?_⟩
  intro enc2
  cases hid : data.id with
  | none => simp [connectionsSave, hid, stripPassword]
  | some tid =>
    cases hf : stored.find? (fun c => c.id == tid) with
    | none => simp [connectionsSave, hid, hf, stripPassword]
    | some old => simp [connectionsSave, hid, hf, stripPassword]

/-- C2: searchTable returns exactly the sorted ascending 0-based global row
indices (row numbering under the given ordering) of the rows in which some
eligible column's text contains the term as a case-folded substring, and
the empty list when no column is eligible; the reported total is the number
of matches. -/
theorem searchTable_spec (fold : Char → Char)
    (hpct : fold '%' = '%') (hback : fold '\\' = '\\')
    (hfold : ∀ c, (fold c = '%' ∨ fold c = '_' ∨ fold c = '\\') ↔
      (c = '%' ∨ c = '_' ∨ c = '\\'))
    (cols : List ColumnMetadata) (tbl : List (List (Option (List Char))))
    (term : List Char)
    (orderBy : Option (List (Option (List Char)) → List (Option (List Char)) → Bool)) :
    (searchTable fold cols tbl term orderBy).1.Sorted (· < ·) ∧
    (cols.filter (fun c => ! skipTypes.contains c.data_type) = [] →
      searchTable fold cols tbl term orderBy = ([], 0)) ∧
    (∀ i, i ∈ (searchTable fold cols tbl term orderBy).1 ↔
      (cols.filter (fun c => ! skipTypes.contains c.data_type) ≠ [] ∧
        ∃ row, (orderedRows tbl orderBy)[i]? = some row ∧
          rowContainsTerm fold cols term row)) ∧
    (searchTable fold cols tbl term orderBy).2 =
      (searchTable fold cols tbl term orderBy).1.length := by
  by_cases he : (cols.filter (fun c => ! skipTypes.contains c.data_type)).isEmpty
  · have he2 : cols.filter (fun c => ! skipTypes.contains c.data_type) = [] := by
      simpa [List.isEmpty_iff] using he
    have hs : searchTable fold cols tbl term orderBy = ([], 0) := by
      simp only [searchTable, he, eq_self_iff_true, if_true]
    refine ⟨?_, fun _ => hs, ?_, ?_⟩
    · rw [hs]; simp
    · intro i
      rw [hs]
      refine ⟨fun hi => absurd hi (by simp), ?_⟩
      rintro ⟨hne, -⟩
      exact absurd he2 hne
    · rw [hs]
      rfl
  · have heb : (cols.filter (fun c => ! skipTypes.contains c.data_type)).isEmpty = false := by
      simpa using he
    have hne : cols.filter (fun c => ! skipTypes.contains c.data_type) ≠ [] := by
      simpa [List.isEmpty_iff] using he
    refine ⟨?_, ?_, ?_, ?_⟩
    · simp only [searchTable, heb, Bool.false_eq_true, if_false]
      exact search_indices_sorted _ _
    · intro h; exact absurd h hne
    · intro i
      simp only [searchTable, heb, Bool.false_eq_true, if_false]
      rw [search_indices_mem]
      constructor
      · rintro ⟨row, hrow, hmatch⟩
        exact ⟨hne, row, hrow,
          (searchRowMatches_iff fold hpct hback hfold cols term row).mp hmatch⟩
      · rintro ⟨-, row, hrow, hcont⟩
        exact ⟨row, hrow,
          (searchRowMatches_iff fold hpct hback hfold cols term row).mpr hcont⟩
    · simp only [searchTable, heb, Bool.false_eq_true, if_false]

/-- C2 witness: a one-column text table where only the second row (global
index 1) contains the term. -/
theorem searchTable_witness :
    (searchTable id [⟨"name", "text"⟩]
      [[some ['h', 'i']], [some ['a', 'l', 'x']]] ['a', 'l'] none).1.Sorted (· < ·) ∧
    (1 ∈ (searchTable id [⟨"name", "text"⟩]
        [[some ['h', 'i']], [some ['a', 'l', 'x']]] ['a', 'l'] none).1 ↔
      (([⟨"name", "text"⟩] : List ColumnMetadata).filter
          (fun c => ! skipTypes.contains c.data_type) ≠ [] ∧
        ∃ row, (orderedRows [[some ['h', 'i']], [some ['a', 'l', 'x']]] none)[1]? = some row ∧
          rowContainsTerm id [⟨"name", "text"⟩] ['a', 'l'] row)) := by
  have h := searchTable_spec id rfl rfl (fun c => Iff.rfl) [⟨"name", "text"⟩]
    [[some ['h', 'i']], [some ['a', 'l', 'x']]] ['a', 'l'] none
  exact ⟨h.1, h.2.2.1 1⟩

/-- C8: a page change (fetchPage with the defaulted sort and filter, i.e.
the pagination buttons) leaves sortState, activeFilter and pendingEdits
unchanged, preserves the search and pending-new-row state, empties the
selection set, and commits the new page number. -/
theorem changePage_preserves_spec (s : BrowserState) (pageNum : Nat)
    (data : TableData BrowserRow) :
    changePage s pageNum (Except.ok data) =
      fetchPage s pageNum s.sortState s.activeFilter (Except.ok data) ∧
    (∀ (sort : Option SortSpec) (filter : String),
      (fetchPage s pageNum sort filter (Except.ok data)).1.sortState = s.sortState ∧
      (fetchPage s pageNum sort filter (Except.ok data)).1.activeFilter = s.activeFilter ∧
      (fetchPage s pageNum sort filter (Except.ok data)).1.pendingEdits = s.pendingEdits ∧
      (fetchPage s pageNum sort filter (Except.ok data)).1.pendingNewRow = s.pendingNewRow ∧
      (fetchPage s pageNum sort filter (Except.ok data)).1.newRowValues = s.newRowValues ∧
      (fetchPage s pageNum sort filter (Except.ok data)).1.searchTerm = s.searchTerm ∧
      (fetchPage s pageNum sort filter (Except.ok data)).1.matchRows = s.matchRows ∧
      (fetchPage s pageNum sort filter (Except.ok data)).1.matchIdx = s.matchIdx ∧
      (fetchPage s pageNum sort filter (Except.ok data)).1.selectedRows = [] ∧
      (fetchPage s pageNum sort filter (Except.ok data)).1.page = pageNum) :=
  ⟨rfl, fun _ _ => ⟨rfl, rfl, rfl, rfl, rfl, rfl, rfl, rfl, rfl, rfl⟩⟩

/-- C3 (amended): handleSort cycles the sort state
unsorted → ASC → DESC → unsorted and refetches page 0 with the new sort,
but it leaves the search state (matching row indices, pointer, term, done
flag) untouched rather than invalidating it. -/
theorem handleSort_spec (s : BrowserState) (col : String)
    (reply : Except String (TableData BrowserRow)) :
    (handleSort s col reply).1.sortState = nextSort s.sortState col ∧
    nextSort none col = some { column := col, dir := SortDir.asc } ∧
    nextSort (some { column := col, dir := SortDir.asc }) col =
      some { column := col, dir := SortDir.desc } ∧
    nextSort (some { column := col, dir := SortDir.desc }) col = none ∧
    (handleSort s col reply).2.head? =
      some (Eff.rpc (Rpc.fetchTableCall 0 (nextSort s.sortState col) s.activeFilter)) ∧
    (∀ data, reply = Except.ok data → (handleSort s col reply).1.page = 0) ∧
    (handleSort s col reply).1.matchRows = s.matchRows ∧
    (handleSort s col reply).1.matchIdx = s.matchIdx ∧
    (handleSort s col reply).1.searchTerm = s.searchTerm ∧
    (handleSort s col reply).1.searchDone = s.searchDone := by
  cases reply with
  | ok data =>
    refine ⟨rfl, rfl, by simp [nextSort], by simp [nextSort], rfl, ?_, rfl, rfl, rfl, rfl⟩
    intro d hd
    rfl
  | error msg =>
    by_cases hf : s.activeFilter = "" <;>
      refine ⟨?_, rfl, by simp [nextSort], by simp [nextSort], ?_, ?_, ?_, ?_, ?_, ?_⟩ <;>
        simp [handleSort, fetchPage, hf]

/-- C3 counterexample: after a sort toggle the previously computed matching
row indices are retained unchanged, not invalidated. -/
theorem handleSort_search_retained_cex :
    (handleSort sortSampleState "id"
        (Except.ok { rows := [], total := 0, limit := 200, offset := 0 })).1.matchRows =
      sortSampleState.matchRows ∧
    sortSampleState.matchRows ≠ [] ∧
    (handleSort sortSampleState "id"
        (Except.ok { rows := [], total := 0, limit := 200, offset := 0 })).1.matchIdx =
      sortSampleState.matchIdx := by
  exact ⟨rfl, by decide, rfl⟩

/-- C3 witness: the amended claim at a concrete state — sort commits, page
returns to 0, search state survives. -/
theorem handleSort_witness :
    (handleSort sortSampleState "id"
        (Except.ok { rows := [], total := 0, limit := 200, offset := 0 })).1.page = 0 ∧
    (handleSort sortSampleState "id"
        (Except.ok { rows := [], total := 0, limit := 200, offset := 0 })).1.sortState =
      nextSort sortSampleState.sortState "id" := by
  obtain ⟨h1, _, _, _, _, h6, _, _, _, _⟩ := handleSort_spec sortSampleState "id"
    (Except.ok { rows := [], total := 0, limit := 200, offset := 0 })
  exact ⟨h6 _ rfl, h1⟩

/-- C4: with a non-empty match list of length n, searchNext moves the
pointer to (p+1) mod n and searchPrev to (p-1+n) mod n, each navigating to
the match at the new pointer; next from the initial pointer -1 selects
index 0, next from the last index wraps to 0; with no matches both are
no-ops. -/
theorem searchNav_spec (s : BrowserState) :
    (s.matchRows = [] → searchNext s = (s, none) ∧ searchPrev s = (s, none)) ∧
    (0 < s.matchRows.length → -1 ≤ s.matchIdx →
      s.matchIdx < (s.matchRows.length : Int) →
      ((searchNext s).1.matchIdx = (s.matchIdx + 1) % (s.matchRows.length : Int) ∧
       (∃ g, (searchNext s).2 = some g ∧
         s.matchRows[(searchNext s).1.matchIdx.toNat]? = some g) ∧
       (s.matchIdx = -1 → (searchNext s).1.matchIdx = 0) ∧
       (s.matchIdx = (s.matchRows.length : Int) - 1 → (searchNext s).1.matchIdx = 0) ∧
       (searchPrev s).1.matchIdx =
         (s.matchIdx - 1 + (s.matchRows.length : Int)) % (s.matchRows.length : Int) ∧
       (∃ g, (searchPrev s).2 = some g ∧
         s.matchRows[(searchPrev s).1.matchIdx.toNat]? = some g))) := by
  constructor
  · intro h0
    constructor <;> simp [searchNext, searchPrev, h0]
  · intro hpos hge hlt
    have hlen : ¬ s.matchRows.length = 0 := by omega
    have hnpos : (0 : Int) < (s.matchRows.length : Int) := by exact_mod_cast hpos
    have hnext1 : (searchNext s).1.matchIdx =
        (s.matchIdx + 1).tmod (s.matchRows.length : Int) := by
      simp [searchNext, hlen]
    have hnext : (searchNext s).1.matchIdx =
        (s.matchIdx + 1) % (s.matchRows.length : Int) := by
      rw [hnext1, Int.tmod_eq_emod (by omega) (le_of_lt hnpos)]
    have hprev1 : (searchPrev s).1.matchIdx =
        (s.matchIdx - 1 + (s.matchRows.length : Int)).tmod (s.matchRows.length : Int) := by
      simp [searchPrev, hlen]
    have hprev : (searchPrev s).1.matchIdx =
        (s.matchIdx - 1 + (s.matchRows.length : Int)) % (s.matchRows.length : Int) := by
      rcases (by omega :
          0 ≤ s.matchIdx - 1 + (s.matchRows.length : Int) ∨
            (s.matchIdx = -1 ∧ (s.matchRows.length : Int) = 1)) with hc | ⟨hia, hn1⟩
      · rw [hprev1, Int.tmod_eq_emod hc (le_of_lt hnpos)]
      · rw [hprev1, hia, hn1]
        decide
    have hnext_lo : 0 ≤ (searchNext s).1.matchIdx := by
      rw [hnext]; exact Int.emod_nonneg _ (by omega)
    have hnext_hi : (searchNext s).1.matchIdx < (s.matchRows.length : Int) := by
      rw [hnext]; exact Int.emod_lt_of_pos _ hnpos
    have hnextNat : (searchNext s).1.matchIdx.toNat < s.matchRows.length := by omega
    have hprev_lo : 0 ≤ (searchPrev s).1.matchIdx := by
      rw [hprev]; exact Int.emod_nonneg _ (by omega)
    have hprev_hi : (searchPrev s).1.matchIdx < (s.matchRows.length : Int) := by
      rw [hprev]; exact Int.emod_lt_of_pos _ hnpos
    have hprevNat : (searchPrev s).1.matchIdx.toNat < s.matchRows.length := by omega
    have e2n : (searchNext s).2 = s.matchRows[(searchNext s).1.matchIdx.toNat]? := by
      simp [searchNext, hlen]
    have e2p : (searchPrev s).2 = s.matchRows[(searchPrev s).1.matchIdx.toNat]? := by
      simp [searchPrev, hlen]
    refine ⟨hnext, ?_, ?_, ?_, hprev, ?_⟩
    · exact ⟨s.matchRows[(searchNext s).1.matchIdx.toNat],
        by rw [e2n]; exact List.getElem?_eq_getElem hnextNat,
        List.getElem?_eq_getElem hnextNat⟩
    · intro hidx
      rw [hnext, hidx]
      simp
    · intro hidx
      rw [hnext, hidx]
      rw [sub_add_cancel]
      exact Int.emod_self
    · exact ⟨s.matchRows[(searchPrev s).1.matchIdx.toNat],
        by rw [e2p]; exact List.getElem?_eq_getElem hprevNat,
        List.getElem?_eq_getElem hprevNat⟩

/-- C4 witness: two matches with the initial pointer -1 — next selects
index 0 and points at global row 7. -/
theorem searchNav_witness :
    (searchNext navSampleState).1.matchIdx =
      (navSampleState.matchIdx + 1) % (navSampleState.matchRows.length : Int) ∧
    (navSampleState.matchIdx = -1 → (searchNext navSampleState).1.matchIdx = 0) ∧
    (∃ g, (searchNext navSampleState).2 = some g ∧
      navSampleState.matchRows[(searchNext navSampleState).1.matchIdx.toNat]? = some g) := by
  obtain ⟨h1, h2, h3, -, -, -⟩ := (searchNav_spec navSampleState).2
    (by decide) (by decide) (by decide)
  exact ⟨h1, fun _ => h3 rfl, h2⟩

/-- A single cell-edit commit issues no effect and changes nothing but the
pending-edit buffer. -/
theorem stageCellEdit_silent (s : BrowserState) (rowIdx : Nat) (col newVal origStr : String) :
    (stageCellEdit s rowIdx col newVal origStr).2 = [] ∧
    (stageCellEdit s rowIdx col newVal origStr).1.tableData = s.tableData ∧
    (stageCellEdit s rowIdx col newVal origStr).1.page = s.page ∧
    (stageCellEdit s rowIdx col newVal origStr).1.sortState = s.sortState ∧
    (stageCellEdit s rowIdx col newVal origStr).1.activeFilter = s.activeFilter ∧
    (stageCellEdit s rowIdx col newVal origStr).1.selectedRows = s.selectedRows ∧
    (stageCellEdit s rowIdx col newVal origStr).1.pendingNewRow = s.pendingNewRow ∧
    (stageCellEdit s rowIdx col newVal origStr).1.newRowValues = s.newRowValues := by
  by_cases h : newVal ≠ origStr <;> simp [stageCellEdit, h]

/-- Staging sequences are silent and preserve everything except the
pending-edit buffer. -/
theorem stageCellEdits_silent (edits : List (Nat × String × String × String)) :
    ∀ s : BrowserState,
      (stageCellEdits s edits).2 = [] ∧
      (stageCellEdits s edits).1.tableData = s.tableData ∧
      (stageCellEdits s edits).1.page = s.page ∧
      (stageCellEdits s edits).1.sortState = s.sortState ∧
      (stageCellEdits s edits).1.activeFilter = s.activeFilter ∧
      (stageCellEdits s edits).1.selectedRows = s.selectedRows ∧
      (stageCellEdits s edits).1.pendingNewRow = s.pendingNewRow ∧
      (stageCellEdits s edits).1.newRowValues = s.newRowValues := by
  induction edits with
  | nil => intro s; exact ⟨rfl, rfl, rfl, rfl, rfl, rfl, rfl, rfl⟩
  | cons e es ih =>
    intro s
    have h1 := stageCellEdit_silent s e.1 e.2.1 e.2.2.1 e.2.2.2
    have heq : stageCellEdits s (e :: es) =
        stageCellEdits (stageCellEdit s e.1 e.2.1 e.2.2.1 e.2.2.2).1 es := by
      rw [stageCellEdits, List.foldl_cons, stageCellEdits]
      simp [h1.1]
    rw [heq]
    obtain ⟨ht, hf1, hf2, hf3, hf4, hf5, hf6, hf7⟩ :=
      ih (stageCellEdit s e.1 e.2.1 e.2.2.1 e.2.2.2).1
    obtain ⟨-, g1, g2, g3, g4, g5, g6, g7⟩ := h1
    exact ⟨ht, hf1.trans g1, hf2.trans g2, hf3.trans g3, hf4.trans g4,
      hf5.trans g5, hf6.trans g6, hf7.trans g7⟩

/-- C5: between a cell-edit commit and a save trigger no write RPC is
issued — any sequence of staged edits produces an empty effect trace and
touches no state outside the pending-edit buffer; the first writes appear
when handleSaveAll runs, which does issue an update for a staged row. -/
theorem stagingNoWrite_spec (s : BrowserState)
    (edits : List (Nat × String × String × String)) :
    (stageCellEdits s edits).2 = [] ∧
    writeCount (stageCellEdits s edits).2 = 0 ∧
    (stageCellEdits s edits).1.tableData = s.tableData ∧
    (stageCellEdits s edits).1.selectedRows = s.selectedRows ∧
    (∀ (pks : List String) (insF : Bool) (updF : Nat → Bool)
      (rr : Except String (TableData BrowserRow)) (data : TableData BrowserRow)
      (rowIdx : Nat) (upd : List (String × String)),
      s.tableData = some data → (rowIdx, upd) ∈ s.pendingEdits →
      rowIdx < data.rows.length → pks ≠ [] →
      0 < writeCount (handleSaveAll s pks insF updF rr).2) := by
  obtain ⟨ht, hf1, -, -, -, hf5, -, -⟩ := stageCellEdits_silent edits s
  refine ⟨ht, by rw [ht]; rfl, hf1, hf5, ?_⟩
  intro pks insF updF rr data rowIdx upd hdata hmem hrow hpk
  have hpeb : s.pendingEdits.isEmpty = false := by
    cases hpe : s.pendingEdits with
    | nil => rw [hpe] at hmem; cases hmem
    | cons a as => rfl
  have hpkb : pks.isEmpty = false := by
    cases pks with
    | nil => exact absurd rfl hpk
    | cons a as => rfl
  obtain ⟨row0, hrow0⟩ : ∃ r, data.rows[rowIdx]? = some r :=
    ⟨data.rows[rowIdx], List.getElem?_eq_getElem hrow⟩
  have hupd : (rowIdx, pkTuple pks row0, upd) ∈ s.pendingEdits.filterMap
      (fun pe => (data.rows[pe.1]?).map (fun row => (pe.1, pkTuple pks row, pe.2))) :=
    List.mem_filterMap.mpr ⟨(rowIdx, upd), hmem, by simp [hrow0]⟩
  have hw : Eff.rpc (Rpc.updateRow pks (pkTuple pks row0) upd) ∈
      (handleSaveAll s pks insF updF rr).2 := by
    simp only [handleSaveAll, hdata, hpeb, hpkb, Bool.false_eq_true, if_false]
    refine List.mem_append.mpr (Or.inl (List.mem_append.mpr (Or.inl ?_)))
    refine List.mem_append.mpr (Or.inr ?_)
    exact List.mem_cons_of_mem _ (List.mem_map.mpr ⟨_, hupd, rfl⟩)
  have hwf : Eff.rpc (Rpc.updateRow pks (pkTuple pks row0) upd) ∈
      ((handleSaveAll s pks insF updF rr).2.filter Eff.isWrite) :=
    List.mem_filter.mpr ⟨hw, rfl⟩
  rw [writeCount]
  exact List.length_pos.mpr (List.ne_nil_of_mem hwf)

/-- C5 witness: one staged edit on a one-row snapshot stays silent, and the
save issues a write. -/
theorem stagingNoWrite_witness :
    (stageCellEdits editSampleState [(0, "email", "x@y.com", "a@b.com")]).2 = [] ∧
    0 < writeCount (handleSaveAll editSampleState ["id"] false (fun _ => false)
      (Except.ok { rows := [], total := 0, limit := 200, offset := 0 })).2 := by
  obtain ⟨h1, -, -, -, h5⟩ := stagingNoWrite_spec editSampleState
    [(0, "email", "x@y.com", "a@b.com")]
  refine ⟨h1, h5 ["id"] false (fun _ => false)
    (Except.ok { rows := [], total := 0, limit := 200, offset := 0 })
    { rows := [[("id", "5"), ("email", "a@b.com")]], total := 1, limit := 200, offset := 0 }
    0 [("email", "x@y.com")] rfl (by decide) (by decide) (by decide)⟩

/-- C6: delete-selected on a table with an empty primary-key list toasts an
error, closes the dialog, and returns before any mutation: the trace is the
key introspection followed by the error toast, contains no write, and the
server-side row count is unchanged. -/
theorem confirmDelete_noPk_spec (s : BrowserState) (pks : List String)
    (deleteReply : Except String Nat)
    (refetchReply : Except String (TableData BrowserRow))
    (data : TableData BrowserRow) (total : Nat)
    (hdata : s.tableData = some data) (hsel : s.selectedRows ≠ [])
    (hpk : pks = []) :
    (confirmDelete s pks deleteReply refetchReply).2 =
      [Eff.rpc Rpc.getPrimaryKeys, Eff.toast "No primary key"] ∧
    writeCount (confirmDelete s pks deleteReply refetchReply).2 = 0 ∧
    serverTotalAfter total (confirmDelete s pks deleteReply refetchReply).2 = total ∧
    (confirmDelete s pks deleteReply refetchReply).1 =
      { s with showDeleteDialog := false } := by
  subst hpk
  have hselb : s.selectedRows.isEmpty = false := by
    cases hs2 : s.selectedRows with
    | nil => exact absurd hs2 hsel
    | cons a as => rfl
  have htr : (confirmDelete s [] deleteReply refetchReply).2 =
      [Eff.rpc Rpc.getPrimaryKeys, Eff.toast "No primary key"] ∧
      (confirmDelete s [] deleteReply refetchReply).1 =
        { s with showDeleteDialog := false } := by
    constructor <;> simp [confirmDelete, hdata, hselb]
  refine ⟨htr.1, ?_, ?_, htr.2⟩
  · rw [htr.1]; rfl
  · rw [htr.1]; rfl

/-- C6 witness: a one-row snapshot with one selected row and no primary
key — the attempted delete leaves a 1-row server untouched. -/
theorem confirmDelete_noPk_witness :
    (confirmDelete delSampleState [] (Except.ok 0)
        (Except.ok { rows := [], total := 0, limit := 200, offset := 0 })).2 =
      [Eff.rpc Rpc.getPrimaryKeys, Eff.toast "No primary key"] ∧
    serverTotalAfter 1 (confirmDelete delSampleState [] (Except.ok 0)
        (Except.ok { rows := [], total := 0, limit := 200, offset := 0 })).2 = 1 := by
  obtain ⟨h1, -, h3, -⟩ := confirmDelete_noPk_spec delSampleState [] (Except.ok 0)
    (Except.ok { rows := [], total := 0, limit := 200, offset := 0 })
    { rows := [[("id", "5"), ("email", "a@b.com")]], total := 1, limit := 200, offset := 0 }
    1 rfl (by decide) rfl
  exact ⟨h1, h3⟩
